import Mathlib

/-!
Verification of the MLTrade walk-forward backtesting engine
(src/backtesting.py) against its natural-language specification.

The Python code is shallowly embedded: real-valued quantities coming from
pandas/numpy are modelled as exact rationals, except where a square root
appears (standard deviations), which is modelled with Real.sqrt.
Predictions are integers; a prediction sequence is a List Int.
-/

/-- One backtest period: half-open train and test index ranges, mirroring the
dictionaries appended by Backtester.splitTrainTest (src/backtesting.py). -/
structure BacktestPeriod where
  train : Nat × Nat
  test : Nat × Nat
deriving DecidableEq, Repr

/-- Loop of the rolling (single_split = False) branch of
Backtester.splitTrainTest (src/backtesting.py lines 253-260):
while i + training_days + window <= test_end, append the period
(Train (i, i + training_days), Test (i + training_days, i + training_days + window))
and advance i by window.  The fuel argument bounds the number of
iterations; it is instantiated large enough that it never runs out for a
positive window. -/
def rollingAux : Nat → Nat → Nat → Nat → Nat → List BacktestPeriod
  | 0, _, _, _, _ => []
  | fuel + 1, i, L, w, tend =>
    if i + L + w ≤ tend then
      ⟨(i, i + L), (i + L, i + L + w)⟩ :: rollingAux fuel (i + w) L w tend
    else []

/-- Rolling branch of Backtester.splitTrainTest: training_days is
train_end - train_start and the loop starts at i = train_start. -/
def splitTrainTestRolling (train_start train_end test_end window : Nat) : List BacktestPeriod :=
  rollingAux (test_end + 1) train_start (train_end - train_start) window test_end

/-- Number of periods the claimed schedule contains: the count of indices
i = train_start, train_start + window, ... with i + L + window ≤ test_end. -/
def rollSteps (i L w tend : Nat) : Nat :=
  if i + L + w ≤ tend then (tend - (i + L + w)) / w + 1 else 0

/-- The period the claim associates with a window start i:
train [i, i+L), test [i+L, i+L+window). -/
def specPeriod (L w i : Nat) : BacktestPeriod :=
  ⟨(i, i + L), (i + L, i + L + w)⟩

/-- Schedule as the claim states it: the periods for
i = train_start, train_start + window, ... while i + L + window ≤ test_end,
in that order, with L = train_end - train_start. -/
def specRolling (train_start train_end test_end window : Nat) : List BacktestPeriod :=
  (List.range (rollSteps train_start (train_end - train_start) window test_end)).map
    (fun j => specPeriod (train_end - train_start) window (train_start + j * window))

/-- Loop of Backtester.__calcDailyReturns (src/backtesting.py lines 60-71):
over the zipped (return, prediction) pairs, append r when the prediction is
1, append 0 when it is -1, and do nothing otherwise. -/
def dailyAux : List (ℚ × Int) → List ℚ
  | [] => []
  | (r, p) :: t =>
    if p = 1 then r :: dailyAux t
    else if p = -1 then (0 : ℚ) :: dailyAux t
    else dailyAux t

/-- Backtester.__calcDailyReturns: the list starts with 0 and then processes
the zipped pairs. -/
def calcDailyReturns (returns : List ℚ) (predictions : List Int) : List ℚ :=
  0 :: dailyAux (returns.zip predictions)

/-- Loop of Backtester.__calcCR (src/backtesting.py lines 77-92): cr is the
running last element of the cumulative_return list; a prediction of 1
multiplies it by (1 + r), a prediction of -1 carries it unchanged, and any
other prediction appends nothing. -/
def crAux (cr : ℚ) : List (ℚ × Int) → List ℚ
  | [] => []
  | (r, p) :: t =>
    if p = 1 then (cr * (1 + r)) :: crAux (cr * (1 + r)) t
    else if p = -1 then cr :: crAux cr t
    else crAux cr t

/-- Backtester.__calcCR: the running-product list starts at 1 and the whole
series is returned minus 1. -/
def calcCR (returns : List ℚ) (predictions : List Int) : List ℚ :=
  ((1 : ℚ) :: crAux 1 (returns.zip predictions)).map (fun x => x - 1)

/-- Mean of a list of rationals, as pandas/numpy mean: sum divided by
length (0 on the empty list by the rational convention x / 0 = 0). -/
def listMean (xs : List ℚ) : ℚ :=
  xs.sum / (xs.length : ℚ)

/-- Sample variance with the pandas default ddof = 1, used by
DataFrame.std() inside Backtester.__calcAV: sum of squared deviations from
the mean divided by (length - 1). -/
def sampleVar (xs : List ℚ) : ℚ :=
  ((xs.map (fun x => (x - listMean xs) ^ 2)).sum) / ((xs.length : ℚ) - 1)

/-- Backtester.__calcAV (src/backtesting.py lines 101-106): the standard
deviation of the daily-returns series times the square root of 252. -/
noncomputable def annualizedVolatility (returns : List ℚ) (predictions : List Int) : ℝ :=
  Real.sqrt ((sampleVar (calcDailyReturns returns predictions) : ℚ) : ℝ) * Real.sqrt 252

/-- The all-ones prediction vector np.ones(n) built by
Backtester.__calcBenchmarkMetrics for the Buy and Hold row. -/
def bnhPred (n : Nat) : List Int :=
  List.replicate n 1

/-- The benchmark report of Backtester.__calcBenchmarkMetrics, restricted to
the fields the claims are about: it has the single index entry
"Buy and Hold", whose cumulative-return figure is the final element of
__calcCR applied to the span returns and an all-ones prediction vector.
The function takes only the returns of the evaluation span; no model
information enters it, exactly as in the source. -/
def benchmarkReport (returns : List ℚ) : List (String × ℚ) :=
  [("Buy and Hold", ((calcCR returns (bnhPred returns.length)).getLast?).getD 0)]

/-- sklearn accuracy_score(y_true, y_pred) on binary labels: the fraction of
aligned positions where the two vectors agree. -/
def accuracy_score (y_true y_pred : List Int) : ℚ :=
  (((y_true.zip y_pred).countP (fun x => x.1 == x.2) : Nat) : ℚ) /
    (((y_true.zip y_pred).length : Nat) : ℚ)

/-- Count of aligned positions where both the ground-truth entry and the
predicted entry are the positive class 1 (sklearn pos_label default). -/
def truePositives (y_true y_pred : List Int) : Nat :=
  (y_true.zip y_pred).countP (fun x => x.1 == 1 && x.2 == 1)

/-- Count of aligned positions predicted as the positive class. -/
def predictedPositives (y_true y_pred : List Int) : Nat :=
  (y_true.zip y_pred).countP (fun x => x.2 == 1)

/-- Count of aligned positions whose ground-truth entry is the positive
class. -/
def actualPositives (y_true y_pred : List Int) : Nat :=
  (y_true.zip y_pred).countP (fun x => x.1 == 1)

/-- sklearn precision_score(y_true, y_pred): true positives over predicted
positives, 0 when there are no predicted positives (zero_division default). -/
def precision_score (y_true y_pred : List Int) : ℚ :=
  if predictedPositives y_true y_pred = 0 then 0
  else (truePositives y_true y_pred : ℚ) / (predictedPositives y_true y_pred : ℚ)

/-- sklearn recall_score(y_true, y_pred): true positives over actual
positives, 0 when there are no actual positives. -/
def recall_score (y_true y_pred : List Int) : ℚ :=
  if actualPositives y_true y_pred = 0 then 0
  else (truePositives y_true y_pred : ℚ) / (actualPositives y_true y_pred : ℚ)

/-- sklearn f1_score(y_true, y_pred): harmonic mean of precision and recall,
0 when their sum is 0. -/
def f1_score (y_true y_pred : List Int) : ℚ :=
  if precision_score y_true y_pred + recall_score y_true y_pred = 0 then 0
  else 2 * precision_score y_true y_pred * recall_score y_true y_pred /
    (precision_score y_true y_pred + recall_score y_true y_pred)

/-- One row of the classification report built by
Backtester.__calcErrorMetrics (src/backtesting.py lines 124-127): the four
sklearn scores called with the model predictions as the FIRST argument and
the true labels of the evaluation span as the SECOND argument, exactly as
in the source. -/
def errorMetricsRow (predictions y : List Int) : ℚ × ℚ × ℚ × ℚ :=
  (accuracy_score predictions y, precision_score predictions y,
   recall_score predictions y, f1_score predictions y)

/-- Accuracy as the claim states it, with the true labels as ground truth:
the sklearn convention places the ground truth first. -/
def claimAccuracy (predictions y : List Int) : ℚ :=
  accuracy_score y predictions

/-- Precision as the claim states it: the fraction of positive predictions
whose true label is positive, i.e. sklearn precision with the true labels
as ground truth. -/
def claimPrecision (predictions y : List Int) : ℚ :=
  precision_score y predictions

/-- Recall as the claim states it: the fraction of true positive labels
predicted positive, i.e. sklearn recall with the true labels as ground
truth. -/
def claimRecall (predictions y : List Int) : ℚ :=
  recall_score y predictions

/-- F1 as the claim states it: harmonic mean of the claimed precision and
recall, with the true labels as ground truth. -/
def claimF1 (predictions y : List Int) : ℚ :=
  f1_score y predictions

/-- Population variance (ddof = 0), the statistic sklearn StandardScaler
fits: mean of squared deviations from the mean. -/
def listVarPop (xs : List ℚ) : ℚ :=
  ((xs.map (fun x => (x - listMean xs) ^ 2)).sum) / (xs.length : ℚ)

/-- Standardizing map of sklearn StandardScaler with statistics fitted on
the list fit: x maps to (x - mean) / sqrt(variance).  Features are
modelled as a single column, which the scaler treats independently of any
other column. -/
noncomputable def scalerTransform (fit : List ℚ) (x : ℚ) : ℝ :=
  ((x : ℝ) - ((listMean fit : ℚ) : ℝ)) / Real.sqrt ((listVarPop fit : ℚ) : ℝ)

/-- StandardScaler.fit_transform: fit the statistics on xs, then transform
xs with them. -/
noncomputable def fitTransform (xs : List ℚ) : List ℝ :=
  xs.map (scalerTransform xs)

/-- The feature slices of one backtest period inside Backtester.testModels:
X_train = X[train_start:train_end] and X_test = X[test_start:test_end]. -/
structure PeriodData where
  X_train : List ℚ
  X_test : List ℚ

/-- Scaled training matrix passed to the search when model.scaling is true:
scaler.fit_transform(X_train) (src/backtesting.py line 283). -/
noncomputable def scaledTrain (d : PeriodData) : List ℝ :=
  fitTransform d.X_train

/-- Scaled test matrix passed to the search when model.scaling is true:
scaler.fit_transform(X_test) (src/backtesting.py line 283) — the scaler is
refit on the test rows. -/
noncomputable def scaledTest (d : PeriodData) : List ℝ :=
  fitTransform d.X_test

/-- Fold label given to index j by Backtester.__runGridSearch
(src/backtesting.py lines 31-32): test_fold = np.zeros(n);
test_fold[:950] = -1, so j gets -1 when j < 950 and 0 otherwise. -/
def foldValue (j : Nat) : Int :=
  if j < 950 then -1 else 0

/-- The whole test_fold array for a training range of length n. -/
def testFold (n : Nat) : List Int :=
  (List.range n).map foldValue

/-- Validation indices of the PredefinedSplit built from testFold: the
positions whose fold label is 0 (label -1 means never in a test fold). -/
def valIndices (n : Nat) : List Nat :=
  (List.range n).filter (fun j => foldValue j == 0)

/-- Candidate-training indices of the single PredefinedSplit fold: the
positions whose fold label is -1. -/
def trainIndices (n : Nat) : List Nat :=
  (List.range n).filter (fun j => foldValue j == -1)

/-- Number of validation splits PredefinedSplit derives from testFold: the
count of distinct labels other than -1; the labels here are only -1 and 0,
so it is 1 exactly when some label is not -1. -/
def nSplits (n : Nat) : Nat :=
  if (testFold n).any (fun v => v != -1) then 1 else 0

/-- A hyperparameter configuration: an assignment of parameter names to
candidate values, one point of the model.hyperparams grid. -/
abbrev GSConfig := List (String × ℚ)

/-- Selection step of GridSearchCV over a single validation fold: given the
validation score of each candidate configuration, pick the one with the
maximal score (the first such on ties, as np.argmax). -/
def selectBest (cfgs : List GSConfig) (score : GSConfig → ℚ) : Option GSConfig :=
  List.argmax score cfgs

/-- Outcome of invoking Backtester.__runGridSearch on a training range of
length n.  The code performs no pre-check at all: it always builds the
PredefinedSplit and calls GridSearchCV(...).fit, which fails inside the
library when the split has zero validation folds.  The constructor
insufficientDataError is modelled from the spec (no such error class exists
anywhere in the repository) so that the claimed behaviour can be stated;
the code never produces it. -/
inductive GridSearchOutcome where
  | insufficientDataError
  | libraryFitError
  | searchRun
deriving DecidableEq, Repr

/-- Control flow of Backtester.__runGridSearch (src/backtesting.py lines
30-43) for a training range of length n: the search runs when the
PredefinedSplit has a validation fold and the library fit fails when it has
none; there is no guard before the search. -/
def runGridSearchOutcome (n : Nat) : GridSearchOutcome :=
  if nSplits n = 0 then GridSearchOutcome.libraryFitError else GridSearchOutcome.searchRun

theorem rollSteps_succ_of_le (i L w tend : Nat) (hw : 0 < w) (h : i + L + w ≤ tend) :
    rollSteps i L w tend = rollSteps (i + w) L w tend + 1 := by
  unfold rollSteps
  rw [if_pos h]
  by_cases h2 : i + w + L + w ≤ tend
  · rw [if_pos h2]
    have ha : w ≤ tend - (i + L + w) := by omega
    have hb : tend - (i + w + L + w) = tend - (i + L + w) - w := by omega
    rw [hb, Nat.div_eq (tend - (i + L + w)) w, if_pos ⟨hw, ha⟩]
  · rw [if_neg h2]
    have hlt : tend - (i + L + w) < w := by omega
    rw [Nat.div_eq_of_lt hlt]

theorem rollSteps_le_fuel (i L w tend : Nat) (hw : 0 < w) :
    rollSteps i L w tend ≤ tend + 1 := by
  unfold rollSteps
  split
  · have := Nat.div_le_self (tend - (i + L + w)) w
    omega
  · omega

theorem rollingAux_eq_spec : ∀ (fuel i : Nat) {L w tend : Nat}, 0 < w →
    rollSteps i L w tend ≤ fuel →
    rollingAux fuel i L w tend =
      (List.range (rollSteps i L w tend)).map (fun j => specPeriod L w (i + j * w)) := by
  intro fuel
  induction fuel with
  | zero =>
    intro i L w tend hw hle
    have h0 : rollSteps i L w tend = 0 := Nat.le_zero.mp hle
    rw [h0]
    rfl
  | succ f ih =>
    intro i L w tend hw hle
    by_cases h : i + L + w ≤ tend
    · have hstep := rollSteps_succ_of_le i L w tend hw h
      have hle2 : rollSteps (i + w) L w tend ≤ f := by omega
      simp only [rollingAux, if_pos h]
      rw [hstep, List.range_succ_eq_map]
      simp only [List.map_cons, List.map_map]
      congr 1
      · simp [specPeriod]
      · rw [ih (i + w) hw hle2]
        apply List.map_congr_left
        intro j hj
        simp only [Function.comp_apply, Nat.succ_eq_add_one, specPeriod]
        have : i + w + j * w = i + (j + 1) * w := by ring
        rw [this]
    · have h0 : rollSteps i L w tend = 0 := by
        unfold rollSteps
        rw [if_neg h]
      rw [h0]
      simp [rollingAux, if_neg h]

/-- C1: the rolling splitter emits exactly the periods
(train [i, i+L), test [i+L, i+L+window)) for
i = train_start, train_start + window, ... while i + L + window ≤ test_end,
in that order, dropping any trailing remainder shorter than window; and on
train_start = 0, train_end = 100, test_end = 250, window = 50 it emits
exactly (0,100)-(100,150), (50,150)-(150,200), (100,200)-(200,250). -/
theorem C1_rolling_split_schedule :
    (∀ train_start train_end test_end window : Nat, 0 < window →
      splitTrainTestRolling train_start train_end test_end window =
        specRolling train_start train_end test_end window) ∧
    splitTrainTestRolling 0 100 250 50 =
      [⟨(0, 100), (100, 150)⟩, ⟨(50, 150), (150, 200)⟩, ⟨(100, 200), (200, 250)⟩] := by
  constructor
  · intro ts te tend w hw
    unfold splitTrainTestRolling specRolling
    exact rollingAux_eq_spec (tend + 1) ts hw (rollSteps_le_fuel ts (te - ts) w tend hw)
  · decide

/-- Witness for C1 at the concrete input of the claim. -/
theorem C1_rolling_split_schedule_witness :
    0 < 50 ∧ splitTrainTestRolling 0 100 250 50 = specRolling 0 100 250 50 :=
  ⟨by decide, C1_rolling_split_schedule.1 0 100 250 50 (by decide)⟩

theorem dailyAux_eq_map :
    ∀ pairs : List (ℚ × Int), (∀ x ∈ pairs, x.2 = 1 ∨ x.2 = -1) →
      dailyAux pairs = pairs.map (fun x => if x.2 = 1 then x.1 else 0) := by
  intro pairs
  induction pairs with
  | nil => intro _; rfl
  | cons x t ih =>
    intro hall
    obtain ⟨r, p⟩ := x
    have hx := hall (r, p) (List.mem_cons_self _ _)
    have ht : ∀ y ∈ t, y.2 = 1 ∨ y.2 = -1 := fun y hy => hall y (List.mem_cons_of_mem _ hy)
    rcases hx with hx | hx
    · simp only at hx
      simp [dailyAux, hx, ih ht]
    · simp only at hx
      simp [dailyAux, hx, ih ht]

/-- C6: with predictions all in the set containing -1 and 1 and matching
lengths, the daily-returns series is 0 followed by, for each aligned pair
in order, r when the prediction is 1 and 0 when it is -1, and its length is
the number of pairs plus one. -/
theorem C6_daily_returns :
    ∀ (returns : List ℚ) (predictions : List Int),
      returns.length = predictions.length →
      (∀ p ∈ predictions, p = 1 ∨ p = -1) →
      calcDailyReturns returns predictions =
        0 :: (returns.zip predictions).map (fun x => if x.2 = 1 then x.1 else 0) ∧
      (calcDailyReturns returns predictions).length = predictions.length + 1 := by
  intro rs ps hlen hall
  have hzip : ∀ x ∈ rs.zip ps, x.2 = 1 ∨ x.2 = -1 := by
    intro x hx
    exact hall x.2 (List.of_mem_zip hx).2
  have hmap := dailyAux_eq_map (rs.zip ps) hzip
  constructor
  · unfold calcDailyReturns
    rw [hmap]
  · unfold calcDailyReturns
    rw [hmap]
    simp [List.length_zip, hlen]

/-- Witness for C6 at a concrete pair of sequences. -/
theorem C6_daily_returns_witness :
    ([(1:ℚ)/10, 1/5].length = [(1 : Int), -1].length) ∧
    calcDailyReturns [(1:ℚ)/10, 1/5] [(1 : Int), -1] =
      0 :: ([(1:ℚ)/10, 1/5].zip [(1 : Int), -1]).map (fun x => if x.2 = 1 then x.1 else 0) ∧
    (calcDailyReturns [(1:ℚ)/10, 1/5] [(1 : Int), -1]).length = [(1 : Int), -1].length + 1 := by
  have h := C6_daily_returns [(1:ℚ)/10, 1/5] [(1 : Int), -1] (by decide) (by decide)
  exact ⟨by decide, h.1, h.2⟩

theorem crAux_all_hold :
    ∀ (rs : List ℚ) (cr : ℚ),
      crAux cr (rs.zip (List.replicate rs.length (-1))) = List.replicate rs.length cr := by
  intro rs
  induction rs with
  | nil => intro cr; rfl
  | cons r t ih =>
    intro cr
    simp only [List.length_cons, List.replicate_succ, List.zip_cons_cons, crAux]
    norm_num
    exact ih cr

theorem dailyAux_all_hold :
    ∀ rs : List ℚ,
      dailyAux (rs.zip (List.replicate rs.length (-1))) = List.replicate rs.length 0 := by
  intro rs
  induction rs with
  | nil => rfl
  | cons r t ih =>
    simp only [List.length_cons, List.replicate_succ, List.zip_cons_cons, dailyAux]
    norm_num
    exact ih

theorem getLast?_replicate_succ (n : Nat) (c : ℚ) :
    (List.replicate (n + 1) c).getLast? = some c := by
  rw [List.replicate_succ']
  exact List.getLast?_concat _

theorem sampleVar_replicate_zero (m : Nat) :
    sampleVar (List.replicate m (0 : ℚ)) = 0 := by
  simp [sampleVar, listMean, List.sum_replicate, List.map_replicate]

/-- C8: for a non-empty returns sequence and an all-(-1) prediction sequence
of the same length, the final value of the cumulative-return series is 0
and the annualized volatility is 0. -/
theorem C8_all_minus_one :
    ∀ rs : List ℚ, rs ≠ [] →
      (calcCR rs (List.replicate rs.length (-1))).getLast? = some 0 ∧
      annualizedVolatility rs (List.replicate rs.length (-1)) = 0 := by
  intro rs _
  have hdaily : calcDailyReturns rs (List.replicate rs.length (-1)) =
      List.replicate (rs.length + 1) 0 := by
    unfold calcDailyReturns
    rw [dailyAux_all_hold]
    exact (List.replicate_succ 0 rs.length).symm
  constructor
  · unfold calcCR
    rw [crAux_all_hold]
    have h1 : (1 : ℚ) :: List.replicate rs.length 1 = List.replicate (rs.length + 1) 1 :=
      (List.replicate_succ 1 rs.length).symm
    rw [h1, List.map_replicate]
    norm_num [getLast?_replicate_succ]
  · unfold annualizedVolatility
    rw [hdaily, sampleVar_replicate_zero]
    simp

/-- Witness for C8 at a one-element returns sequence. -/
theorem C8_all_minus_one_witness :
    ([(1:ℚ)/100] ≠ []) ∧
    (calcCR [(1:ℚ)/100] (List.replicate ([(1:ℚ)/100]).length (-1))).getLast? = some 0 ∧
    annualizedVolatility [(1:ℚ)/100] (List.replicate ([(1:ℚ)/100]).length (-1)) = 0 := by
  have h := C8_all_minus_one [(1:ℚ)/100] (by simp)
  exact ⟨by simp, h.1, h.2⟩

theorem crAux_all_long :
    ∀ (rs : List ℚ) (cr : ℚ),
      (cr :: crAux cr (rs.zip (List.replicate rs.length 1))).getLast? =
        some (cr * (rs.map (fun r => 1 + r)).prod) := by
  intro rs
  induction rs with
  | nil => intro cr; simp [crAux]
  | cons r t ih =>
    intro cr
    simp only [List.length_cons, List.replicate_succ, List.zip_cons_cons, crAux]
    norm_num [List.getLast?_cons_cons]
    have h := ih (cr * (1 + r))
    rw [show cr * ((1 + r) * (t.map (fun r => 1 + r)).prod)
          = cr * (1 + r) * (t.map (fun r => 1 + r)).prod from by ring]
    exact h

/-- C9: the benchmark report is the single Buy and Hold row, computed from
an all-plus-one prediction sequence over the span (the report takes no
model information at all), and its cumulative return is the compounded
product of (1 + r) over the span returns, minus 1. -/
theorem C9_benchmark_row :
    ∀ returns : List ℚ,
      benchmarkReport returns =
        [("Buy and Hold", (returns.map (fun r => 1 + r)).prod - 1)] ∧
      (bnhPred returns.length).all (fun p => p == 1) = true := by
  intro rs
  constructor
  · unfold benchmarkReport calcCR bnhPred
    rw [List.getLast?_map _ _, crAux_all_long rs 1]
    simp
  · simp only [bnhPred, List.all_eq_true]
    intro p hp
    simp [List.eq_of_mem_replicate hp]

theorem dailyAux_length :
    ∀ pairs : List (ℚ × Int),
      (dailyAux pairs).length = pairs.countP (fun x => x.2 == 1 || x.2 == -1) := by
  intro pairs
  induction pairs with
  | nil => rfl
  | cons x t ih =>
    obtain ⟨r, p⟩ := x
    by_cases h1 : p = 1
    · simp [dailyAux, h1, List.countP_cons, ih]
    · by_cases h2 : p = -1
      · simp [dailyAux, h1, h2, List.countP_cons, ih]
      · simp [dailyAux, h1, h2, List.countP_cons, ih]

theorem crAux_length :
    ∀ (pairs : List (ℚ × Int)) (cr : ℚ),
      (crAux cr pairs).length = pairs.countP (fun x => x.2 == 1 || x.2 == -1) := by
  intro pairs
  induction pairs with
  | nil => intro cr; rfl
  | cons x t ih =>
    intro cr
    obtain ⟨r, p⟩ := x
    by_cases h1 : p = 1
    · simp [crAux, h1, List.countP_cons, ih]
    · by_cases h2 : p = -1
      · simp [crAux, h1, h2, List.countP_cons, ih]
      · simp [crAux, h1, h2, List.countP_cons, ih]

theorem zip_countP_snd :
    ∀ (rs : List ℚ) (ps : List Int) (f : Int → Bool), rs.length = ps.length →
      (rs.zip ps).countP (fun x => f x.2) = ps.countP f := by
  intro rs
  induction rs with
  | nil =>
    intro ps f h
    cases ps with
    | nil => rfl
    | cons p q => simp at h
  | cons r t ih =>
    intro ps f h
    cases ps with
    | nil => simp at h
    | cons p q =>
      simp only [List.zip_cons_cons, List.countP_cons]
      rw [ih q f (by simpa using h)]

theorem countP_lt_length_of_exists_not :
    ∀ (ps : List Int) (f : Int → Bool), (∃ p ∈ ps, f p = false) →
      ps.countP f < ps.length := by
  intro ps
  induction ps with
  | nil => intro f h; obtain ⟨p, hp, _⟩ := h; simp at hp
  | cons a t ih =>
    intro f h
    obtain ⟨p, hp, hfp⟩ := h
    rcases List.mem_cons.mp hp with hpa | hpt
    · subst hpa
      have := List.countP_le_length (l := t) f
      simp [List.countP_cons, hfp]
      omega
    · have := ih f ⟨p, hpt, hfp⟩
      simp only [List.countP_cons, List.length_cons]
      split <;> omega

/-- C10: when the sequences have the same length and some prediction is
outside the values -1 and 1, both the daily-returns and cumulative-return
computations silently skip the offending aligned pairs, so each output has
length 1 plus the number of predictions equal to 1 or -1, strictly less
than the number of pairs plus one. -/
theorem C10_skip_invalid_predictions :
    ∀ (returns : List ℚ) (predictions : List Int),
      returns.length = predictions.length →
      (∃ p ∈ predictions, ¬(p = 1 ∨ p = -1)) →
      (calcDailyReturns returns predictions).length
          = 1 + predictions.countP (fun p => p == 1 || p == -1) ∧
      (calcCR returns predictions).length
          = 1 + predictions.countP (fun p => p == 1 || p == -1) ∧
      1 + predictions.countP (fun p => p == 1 || p == -1) < returns.length + 1 := by
  intro rs ps hlen hex
  have hzip := zip_countP_snd rs ps (fun p => p == 1 || p == -1) hlen
  refine ⟨?_, ?_, ?_⟩
  · unfold calcDailyReturns
    simp only [List.length_cons, dailyAux_length, hzip]
    omega
  · unfold calcCR
    simp only [List.length_map, List.length_cons, crAux_length, hzip]
    omega
  · obtain ⟨p, hp, hnp⟩ := hex
    push_neg at hnp
    have hlt := countP_lt_length_of_exists_not ps (fun p => p == 1 || p == -1)
      ⟨p, hp, by simp [beq_iff_eq, hnp.1, hnp.2]⟩
    omega

/-- Witness for C10 at a concrete pair with an invalid prediction 0. -/
theorem C10_skip_invalid_predictions_witness :
    ([(1:ℚ)/10, 1/5].length = [(1 : Int), 0].length) ∧
    (∃ p ∈ [(1 : Int), 0], ¬(p = 1 ∨ p = -1)) ∧
    (calcDailyReturns [(1:ℚ)/10, 1/5] [(1 : Int), 0]).length
        = 1 + ([(1 : Int), 0].countP (fun p => p == 1 || p == -1)) ∧
    (calcCR [(1:ℚ)/10, 1/5] [(1 : Int), 0]).length
        = 1 + ([(1 : Int), 0].countP (fun p => p == 1 || p == -1)) ∧
    1 + ([(1 : Int), 0].countP (fun p => p == 1 || p == -1)) < [(1:ℚ)/10, 1/5].length + 1 := by
  have h := C10_skip_invalid_predictions [(1:ℚ)/10, 1/5] [(1 : Int), 0]
    (by decide) ⟨0, by decide, by decide⟩
  exact ⟨by decide, ⟨0, by decide, by decide⟩, h.1, h.2.1, h.2.2⟩

theorem beq_int_comm (a b : Int) : (a == b) = (b == a) := by
  rw [Bool.eq_iff_iff]
  simp only [beq_iff_eq]
  exact eq_comm

theorem countP_zip_swap (l₁ l₂ : List Int) (f : Int × Int → Bool) :
    (l₂.zip l₁).countP f = (l₁.zip l₂).countP (fun x => f x.swap) := by
  rw [← List.zip_swap l₁ l₂, List.countP_map]
  rfl

theorem truePositives_swap (l₁ l₂ : List Int) :
    truePositives l₂ l₁ = truePositives l₁ l₂ := by
  unfold truePositives
  rw [countP_zip_swap]
  have h : (fun x : Int × Int => x.swap.1 == 1 && x.swap.2 == 1)
      = (fun x : Int × Int => x.1 == 1 && x.2 == 1) := by
    funext x
    exact Bool.and_comm _ _
  rw [h]

theorem predictedPositives_swap (l₁ l₂ : List Int) :
    predictedPositives l₂ l₁ = actualPositives l₁ l₂ := by
  unfold predictedPositives actualPositives
  rw [countP_zip_swap]
  rfl

theorem actualPositives_swap (l₁ l₂ : List Int) :
    actualPositives l₂ l₁ = predictedPositives l₁ l₂ := by
  unfold predictedPositives actualPositives
  rw [countP_zip_swap]
  rfl

theorem accuracy_score_comm (l₁ l₂ : List Int) :
    accuracy_score l₂ l₁ = accuracy_score l₁ l₂ := by
  unfold accuracy_score
  rw [countP_zip_swap]
  have h : (fun x : Int × Int => x.swap.1 == x.swap.2)
      = (fun x : Int × Int => x.2 == x.1) := rfl
  rw [h]
  have h2 : (fun x : Int × Int => x.2 == x.1) = (fun x : Int × Int => x.1 == x.2) := by
    funext x
    exact beq_int_comm x.2 x.1
  rw [h2]
  have h3 : (l₂.zip l₁).length = (l₁.zip l₂).length := by
    simp [List.length_zip, Nat.min_comm]
  rw [h3]

theorem precision_score_swap (l₁ l₂ : List Int) :
    precision_score l₂ l₁ = recall_score l₁ l₂ := by
  unfold precision_score recall_score
  rw [truePositives_swap, predictedPositives_swap]

theorem recall_score_swap (l₁ l₂ : List Int) :
    recall_score l₂ l₁ = precision_score l₁ l₂ := by
  unfold precision_score recall_score
  rw [truePositives_swap, actualPositives_swap]

theorem f1_score_comm (l₁ l₂ : List Int) :
    f1_score l₂ l₁ = f1_score l₁ l₂ := by
  have hp : precision_score l₂ l₁ = recall_score l₁ l₂ := precision_score_swap l₁ l₂
  have hr : recall_score l₂ l₁ = precision_score l₁ l₂ := recall_score_swap l₁ l₂
  unfold f1_score
  rw [hp, hr, add_comm (recall_score l₁ l₂) (precision_score l₁ l₂)]
  by_cases h : precision_score l₁ l₂ + recall_score l₁ l₂ = 0
  · simp [h]
  · rw [if_neg h, if_neg h]
    ring

/-- C7 counterexample: at predictions (1, 1) and true labels (1, -1) the
classification row of the code differs from the row the claim describes
(with the true labels as ground truth): the code reports precision 1 where
the claimed precision is 1/2, because the sklearn scores are called with
the two arguments swapped. -/
theorem C7_precision_recall_counterexample :
    errorMetricsRow [1, 1] [1, -1] ≠
      (claimAccuracy [1, 1] [1, -1], claimPrecision [1, 1] [1, -1],
       claimRecall [1, 1] [1, -1], claimF1 [1, 1] [1, -1]) := by
  have hp1 : predictedPositives [1, 1] [1, -1] = 1 := by decide
  have ht1 : truePositives [1, 1] [1, -1] = 1 := by decide
  have hp2 : predictedPositives [1, -1] [1, 1] = 2 := by decide
  have ht2 : truePositives [1, -1] [1, 1] = 1 := by decide
  have e1 : precision_score [1, 1] [1, -1] = 1 := by
    unfold precision_score
    rw [hp1, ht1]
    norm_num
  have e2 : precision_score [1, -1] [1, 1] = 1 / 2 := by
    unfold precision_score
    rw [hp2, ht2]
    norm_num
  intro h
  have h2 := congrArg (fun t : ℚ × ℚ × ℚ × ℚ => t.2.1) h
  simp only [errorMetricsRow, claimPrecision] at h2
  rw [e1, e2] at h2
  norm_num at h2

/-- C7 amended: the reported accuracy and F1 are as the claim states, but
the reported precision equals the claimed recall (the fraction of true
positive labels that are predicted positive) and the reported recall equals
the claimed precision (the fraction of positive predictions whose true
label is positive), because the code passes the predictions in the
ground-truth slot of every sklearn score. -/
theorem C7_metrics_amended :
    ∀ (predictions y : List Int),
      errorMetricsRow predictions y =
        (claimAccuracy predictions y, claimRecall predictions y,
         claimPrecision predictions y, claimF1 predictions y) := by
  intro preds y
  unfold errorMetricsRow claimAccuracy claimRecall claimPrecision claimF1
  rw [accuracy_score_comm y preds, precision_score_swap y preds,
    recall_score_swap y preds, f1_score_comm y preds]

/-- C2 counterexample: with training column (0, 2) and test column (4, 6),
the scaled test matrix the code passes to the search (the scaler refit on
the test rows, src/backtesting.py line 283) differs from the test rows
transformed with the statistics fitted on the training rows: the code
yields (-1, 1) where the claim requires (3, 5). -/
theorem C2_scaler_refit_counterexample :
    scaledTest ⟨[0, 2], [4, 6]⟩ ≠ ([4, 6] : List ℚ).map (scalerTransform [0, 2]) := by
  have hm1 : listMean [(4 : ℚ), 6] = 5 := by
    norm_num [listMean, List.sum_cons, List.sum_nil]
  have hv1 : listVarPop [(4 : ℚ), 6] = 1 := by
    norm_num [listVarPop, listMean, List.sum_cons, List.sum_nil]
  have hm2 : listMean [(0 : ℚ), 2] = 1 := by
    norm_num [listMean, List.sum_cons, List.sum_nil]
  have hv2 : listVarPop [(0 : ℚ), 2] = 1 := by
    norm_num [listVarPop, listMean, List.sum_cons, List.sum_nil]
  intro h
  have h2 := congrArg List.head? h
  simp only [scaledTest, fitTransform, List.map_cons, List.head?] at h2
  have hhead : scalerTransform [(4 : ℚ), 6] 4 = scalerTransform [(0 : ℚ), 2] 4 :=
    Option.some.inj h2
  unfold scalerTransform at hhead
  rw [hm1, hv1, hm2, hv2] at hhead
  push_cast at hhead
  rw [Real.sqrt_one] at hhead
  norm_num at hhead

/-- C2 amended: the scaled training matrix depends only on the training
rows (identical for any two periods agreeing on them), while the test rows
are transformed with the statistics the scaler refits on the test rows
themselves, so the scaled test matrix depends only on the test rows. -/
theorem C2_scaling_amended :
    (∀ d₁ d₂ : PeriodData, d₁.X_train = d₂.X_train → scaledTrain d₁ = scaledTrain d₂) ∧
    (∀ d : PeriodData, scaledTest d = d.X_test.map (scalerTransform d.X_test)) ∧
    (∀ d₁ d₂ : PeriodData, d₁.X_test = d₂.X_test → scaledTest d₁ = scaledTest d₂) := by
  refine ⟨?_, ?_, ?_⟩
  · intro d₁ d₂ h
    unfold scaledTrain fitTransform
    rw [h]
  · intro d
    rfl
  · intro d₁ d₂ h
    unfold scaledTest fitTransform
    rw [h]

/-- Witness for the amended C2 at two concrete periods sharing training
rows. -/
theorem C2_scaling_amended_witness :
    (PeriodData.mk [0, 2] [4, 6]).X_train = (PeriodData.mk [0, 2] [7]).X_train ∧
    scaledTrain ⟨[0, 2], [4, 6]⟩ = scaledTrain ⟨[0, 2], [7]⟩ :=
  ⟨rfl, C2_scaling_amended.1 ⟨[0, 2], [4, 6]⟩ ⟨[0, 2], [7]⟩ rfl⟩

theorem valIndices_eq : ∀ n : Nat, valIndices n = List.range' 950 (n - 950) := by
  intro n
  induction n with
  | zero => rfl
  | succ m ih =>
    unfold valIndices at ih ⊢
    rw [List.range_succ, List.filter_append, ih]
    by_cases h : m < 950
    · have hf : foldValue m = -1 := by simp [foldValue, h]
      have hempty : List.filter (fun j => foldValue j == 0) [m] = [] := by
        simp [hf]
      rw [hempty]
      have h1 : m - 950 = 0 := by omega
      have h2 : m + 1 - 950 = 0 := by omega
      rw [h1, h2]
      rfl
    · have hf : foldValue m = 0 := by simp [foldValue, h]
      have hone : List.filter (fun j => foldValue j == 0) [m] = [m] := by
        simp [hf]
      rw [hone]
      have hm : [m] = List.range' (950 + (m - 950)) 1 := by
        have hx : 950 + (m - 950) = m := by omega
        rw [hx]
        rfl
      rw [hm]
      have happ := List.range'_append 950 (m - 950) 1 1
      have h4 : 950 + 1 * (m - 950) = 950 + (m - 950) := by ring
      rw [h4] at happ
      rw [happ]
      have h5 : m + 1 - 950 = 1 + (m - 950) := by omega
      rw [h5]

theorem trainIndices_eq : ∀ n : Nat, trainIndices n = List.range (min 950 n) := by
  intro n
  induction n with
  | zero => rfl
  | succ m ih =>
    unfold trainIndices at ih ⊢
    rw [List.range_succ, List.filter_append, ih]
    by_cases h : m < 950
    · have hf : foldValue m = -1 := by simp [foldValue, h]
      have hone : List.filter (fun j => foldValue j == -1) [m] = [m] := by
        simp [hf]
      rw [hone]
      rw [Nat.min_eq_right (by omega : m ≤ 950), Nat.min_eq_right (by omega : m + 1 ≤ 950)]
      exact (List.range_succ m).symm
    · have hf : foldValue m = 0 := by simp [foldValue, h]
      have hempty : List.filter (fun j => foldValue j == -1) [m] = [] := by
        simp [hf]
      rw [hempty]
      rw [Nat.min_eq_left (by omega : 950 ≤ m), Nat.min_eq_left (by omega : 950 ≤ m + 1)]
      simp

/-- C3 counterexample: there is no single N with the validation fold equal
to the final N rows for every training-range length; the holdout size is
the training length minus 950 (1 row at length 951, 10 rows at length 960),
because the code fixes the size of the candidate-training side at 950, not
the size of the holdout. -/
theorem C3_fixed_holdout_counterexample :
    ¬ ∃ N : Nat, ∀ n : Nat, 950 < n → (valIndices n).length = N := by
  rintro ⟨N, h⟩
  have h1 := h 951 (by omega)
  have h2 := h 960 (by omega)
  rw [valIndices_eq] at h1 h2
  simp only [List.length_range'] at h1 h2
  omega

/-- C3 amended: the hyperparameter search scores candidates on a single
validation fold consisting of every row of the training range from index
950 on (so its size is the training length minus 950 and varies with it),
trains each candidate on the first 950 rows, and selects a configuration
with maximal validation score. -/
theorem C3_grid_search_amended :
    (∀ n : Nat, valIndices n = List.range' 950 (n - 950) ∧
      trainIndices n = List.range (min 950 n) ∧
      (valIndices n).length = n - 950) ∧
    (∀ n : Nat, 950 < n → nSplits n = 1) ∧
    (∀ (cfgs : List GSConfig) (score : GSConfig → ℚ) (c : GSConfig),
      selectBest cfgs score = some c → c ∈ cfgs ∧ ∀ c₂ ∈ cfgs, score c₂ ≤ score c) := by
  refine ⟨?_, ?_, ?_⟩
  · intro n
    refine ⟨valIndices_eq n, trainIndices_eq n, ?_⟩
    rw [valIndices_eq n]
    simp
  · intro n hn
    unfold nSplits
    rw [if_pos]
    rw [List.any_eq_true]
    refine ⟨0, ?_, by decide⟩
    unfold testFold
    apply List.mem_map.mpr
    refine ⟨950, List.mem_range.mpr hn, ?_⟩
    simp [foldValue]
  · intro cfgs score c h
    have hc : c ∈ List.argmax score cfgs := Option.mem_def.mpr h
    exact ⟨List.argmax_mem hc, fun c₂ hc₂ => List.le_of_mem_argmax hc₂ hc⟩

/-- Witness for the amended C3 at training length 1000 and a singleton
candidate grid. -/
theorem C3_grid_search_amended_witness :
    valIndices 1000 = List.range' 950 (1000 - 950) ∧
    (950 < 1000 ∧ nSplits 1000 = 1) ∧
    (selectBest [([] : GSConfig)] (fun _ => (0 : ℚ)) = some [] ∧
      ([] : GSConfig) ∈ [([] : GSConfig)] ∧
      ∀ c₂ ∈ [([] : GSConfig)], (fun _ : GSConfig => (0 : ℚ)) c₂
        ≤ (fun _ : GSConfig => (0 : ℚ)) []) := by
  have hsel : selectBest [([] : GSConfig)] (fun _ => (0 : ℚ)) = some [] := rfl
  have hc := C3_grid_search_amended.2.2 [([] : GSConfig)] (fun _ => (0 : ℚ)) [] hsel
  exact ⟨(C3_grid_search_amended.1 1000).1,
    ⟨by omega, C3_grid_search_amended.2.1 1000 (by omega)⟩, hsel, hc.1, hc.2⟩

/-- C5 counterexample: at a training range of length 100 (shorter than any
holdout) the trainer does not fail fast with InsufficientDataError; it
builds the split and the failure happens inside the library fit. -/
theorem C5_no_insufficient_data_error_counterexample :
    runGridSearchOutcome 100 = GridSearchOutcome.libraryFitError ∧
    GridSearchOutcome.libraryFitError ≠ GridSearchOutcome.insufficientDataError := by
  exact ⟨by decide, by decide⟩

/-- C5 amended: for every training range of length at most 950 the fold
construction marks every row as train-only, the predefined split has zero
validation folds, and the invocation fails inside the library fit; the
repository defines no InsufficientDataError and performs no pre-check. -/
theorem C5_short_training_amended :
    ∀ n : Nat, n ≤ 950 →
      testFold n = List.replicate n (-1) ∧
      nSplits n = 0 ∧
      runGridSearchOutcome n = GridSearchOutcome.libraryFitError := by
  intro n hn
  have hfold : testFold n = List.replicate n (-1) := by
    unfold testFold
    refine List.eq_replicate_iff.mpr ⟨by simp, ?_⟩
    intro b hb
    obtain ⟨j, hj, rfl⟩ := List.mem_map.mp hb
    have hjlt : j < 950 := lt_of_lt_of_le (List.mem_range.mp hj) hn
    simp [foldValue, hjlt]
  have hany : ((testFold n).any (fun v => v != -1)) = false := by
    cases hcase : (testFold n).any (fun v => v != -1)
    · rfl
    · exfalso
      obtain ⟨v, hv, hne⟩ := List.any_eq_true.mp hcase
      rw [hfold] at hv
      rw [List.eq_of_mem_replicate hv] at hne
      exact absurd hne (by decide)
  have hsplit : nSplits n = 0 := by
    unfold nSplits
    rw [hany]
    rfl
  refine ⟨hfold, hsplit, ?_⟩
  unfold runGridSearchOutcome
  rw [hsplit]
  rfl

/-- Witness for the amended C5 at training length 100. -/
theorem C5_short_training_amended_witness :
    100 ≤ 950 ∧ testFold 100 = List.replicate 100 (-1) ∧ nSplits 100 = 0 ∧
      runGridSearchOutcome 100 = GridSearchOutcome.libraryFitError := by
  have h := C5_short_training_amended 100 (by omega)
  exact ⟨by omega, h.1, h.2.1, h.2.2⟩
